import Mathlib

/-!
Shallow embedding of the nimbus resilience and budget-monitoring services.

The definitions below are translated from:
  * src/engine/nimbus/services/resilience.py
      (retry decorator, CircuitState, CircuitBreaker, ErrorTracker)
  * src/engine/nimbus/providers/base.py   (ProviderAdapter._resilient_call)
  * src/engine/nimbus/services/budget_monitor.py
      (get_spending, check_budget, enforce_budget, _get_enforceable_resources)

Wall-clock time (Python time.time()) is modelled as an explicit rational
parameter passed to every operation that reads the clock; Python floats
(delays, money amounts) are modelled as rationals; Python exceptions are
modelled as values of an explicit exception type, and a raising call is a
value of Except.
-/

set_option autoImplicit false

/-- The exceptions relevant to the resilience layer: the dedicated
CircuitBreakerError (carrying the wait hint that the message of
resilience.py line 152 interpolates) and every other exception, abstracted
to its type name and message (Python type(e).__name__ / str(e)). -/
inductive PyExc where
  | circuitBreakerError (wait : ℚ)
  | other (error_type : String) (message : String)
  deriving DecidableEq, Repr

/-- Whether an exception is the CircuitBreakerError rejection signal. -/
def PyExc.isCBE : PyExc → Bool
  | .circuitBreakerError _ => true
  | .other _ _ => false

/-- type(e).__name__ for the modelled exceptions. -/
def PyExc.excType : PyExc → String
  | .circuitBreakerError _ => "CircuitBreakerError"
  | .other t _ => t

/-- str(e) for the modelled exceptions (the CircuitBreakerError message is
abstracted to a fixed string; its numeric content lives in the wait field). -/
def PyExc.excMsg : PyExc → String
  | .circuitBreakerError _ => "circuit open"
  | .other _ m => m

/-- CircuitState enum of resilience.py (members CLOSED, OPEN, HALF_OPEN). -/
inductive CircuitState where
  | CLOSED
  | OPEN
  | HALF_OPEN
  deriving DecidableEq, Repr

/-- CircuitBreaker of resilience.py: configuration plus the mutable fields
_state, _failure_count, _last_failure_time. -/
structure CircuitBreaker where
  failure_threshold : ℕ
  reset_timeout : ℚ
  name : String
  state : CircuitState
  failure_count : ℕ
  last_failure_time : ℚ
  deriving DecidableEq, Repr

/-- CircuitBreaker.__init__: fresh breaker (CLOSED, 0 failures, last failure
time 0). -/
def CircuitBreaker.mkNew (failure_threshold : ℕ) (reset_timeout : ℚ)
    (name : String) : CircuitBreaker :=
  ⟨failure_threshold, reset_timeout, name, .CLOSED, 0, 0⟩

/-- The `state` property of CircuitBreaker: reading the state at time `now`
moves OPEN to HALF_OPEN once `now - _last_failure_time >= reset_timeout`,
and returns the (possibly updated) state together with the updated breaker. -/
def CircuitBreaker.readState (cb : CircuitBreaker) (now : ℚ) :
    CircuitState × CircuitBreaker :=
  if cb.state = .OPEN ∧ now - cb.last_failure_time ≥ cb.reset_timeout then
    (.HALF_OPEN, { cb with state := .HALF_OPEN })
  else
    (cb.state, cb)

/-- CircuitBreaker.record_success: unconditionally set the state to CLOSED
and reset the failure count to 0. -/
def CircuitBreaker.record_success (cb : CircuitBreaker) : CircuitBreaker :=
  { cb with state := .CLOSED, failure_count := 0 }

/-- CircuitBreaker.record_failure at time `now`: increment the failure
count, stamp the failure time; HALF_OPEN trips to OPEN, and otherwise the
breaker trips to OPEN when the new count reaches failure_threshold. -/
def CircuitBreaker.record_failure (cb : CircuitBreaker) (now : ℚ) :
    CircuitBreaker :=
  let cnt := cb.failure_count + 1
  if cb.state = .HALF_OPEN then
    { cb with failure_count := cnt, last_failure_time := now, state := .OPEN }
  else if cnt ≥ cb.failure_threshold then
    { cb with failure_count := cnt, last_failure_time := now, state := .OPEN }
  else
    { cb with failure_count := cnt, last_failure_time := now }

/-- Outcome of CircuitBreaker.call: the returned value, the raised
CircuitBreakerError (with its wait hint), or the re-raised exception of the
wrapped function. -/
inductive CallOutcome (α : Type) where
  | ok (a : α)
  | circuitOpen (wait : ℚ)
  | raised (e : PyExc)
  deriving DecidableEq, Repr

/-- CircuitBreaker.call at time `now`. The wrapped function is modelled by
its outcome `fn` (return value or raised exception). Returns the outcome,
the updated breaker, and whether the wrapped function was invoked.
If the state reads OPEN the call is rejected immediately with a
CircuitBreakerError carrying reset_timeout (the message interpolates
`Will retry after reset_timeout s`); otherwise the function is invoked and
record_success / record_failure performed. -/
def CircuitBreaker.call {α : Type} (cb : CircuitBreaker) (now : ℚ)
    (fn : Except PyExc α) : CallOutcome α × CircuitBreaker × Bool :=
  let rd := cb.readState now
  if rd.1 = .OPEN then
    (.circuitOpen rd.2.reset_timeout, rd.2, false)
  else
    match fn with
    | .ok a => (.ok a, rd.2.record_success, true)
    | .error e => (.raised e, rd.2.record_failure now, true)

/-- One invocation of a retry-wrapped function: it returns a value or raises
an exception. The function's behaviour may differ per attempt, so it is a
map from the attempt number (1-based) to the attempt's outcome. -/
inductive Attempt (α : Type) where
  | ok (a : α)
  | exc (e : PyExc)
  deriving DecidableEq, Repr

/-- Configuration of the retry decorator of resilience.py.
`retryable` models membership of an exception's type in
retryable_exceptions (Python's `except retryable_exceptions`). -/
structure RetryConfig where
  max_attempts : ℕ
  base_delay : ℚ
  max_delay : ℚ
  backoff_factor : ℚ
  jitter : Bool
  retryable : PyExc → Bool

/-- Result of running a retry-wrapped function to completion:
a returned value, a propagated exception, or the degenerate
`max_attempts = 0` path (Python would reach `raise last_exception` with
last_exception still None). -/
inductive RetryResult (α : Type) where
  | ok (a : α)
  | raised (e : PyExc)
  | noAttempts
  deriving DecidableEq, Repr

/-- Trace of one run of a retry-wrapped function: the final result, the
number of invocations of the wrapped function, and the actual (jittered)
delays slept between attempts, in order. -/
structure RetryTrace (α : Type) where
  result : RetryResult α
  invocations : ℕ
  sleeps : List ℚ
  deriving DecidableEq, Repr

/-- The jittered delay actually slept: resilience.py line 57 multiplies the
current delay by `0.75 + random.random() * 0.5` when jitter is on. `r` is
the value drawn from random.random(), in [0, 1). -/
def jitterOf (jitter : Bool) (r : ℚ) (delay : ℚ) : ℚ :=
  if jitter then delay * (3/4 + r * (1/2)) else delay

/-- The delay update of resilience.py line 66:
`delay = min(delay * backoff_factor, max_delay)`. -/
def nextDelay (cfg : RetryConfig) (delay : ℚ) : ℚ :=
  min (delay * cfg.backoff_factor) cfg.max_delay

/-- The loop body of the retry decorator (resilience.py lines 45-66).
`f` gives each attempt's outcome, `rand` the random.random() draw used for
the jitter of the sleep that follows that attempt, `attempt` the 1-based
attempt number, `remaining` the number of loop iterations left
(`max_attempts - attempt + 1`), `delay` the current base delay.
A retryable failure on a non-final attempt sleeps the jittered delay and
continues with the updated delay; a failure on the final attempt, or a
non-retryable failure, propagates unmodified. -/
def retryLoop {α : Type} (cfg : RetryConfig) (f : ℕ → Attempt α)
    (rand : ℕ → ℚ) : ℕ → ℕ → ℚ → RetryTrace α
  | _, 0, _ => ⟨.noAttempts, 0, []⟩
  | attempt, remaining + 1, delay =>
    match f attempt with
    | .ok a => ⟨.ok a, 1, []⟩
    | .exc e =>
      if cfg.retryable e then
        if remaining = 0 then
          ⟨.raised e, 1, []⟩
        else
          let actual := jitterOf cfg.jitter (rand attempt) delay
          let rest := retryLoop cfg f rand (attempt + 1) remaining
            (nextDelay cfg delay)
          ⟨rest.result, rest.invocations + 1, actual :: rest.sleeps⟩
      else
        ⟨.raised e, 1, []⟩

/-- Running a retry-wrapped function: attempts start at 1 with base_delay. -/
def retryRun {α : Type} (cfg : RetryConfig) (f : ℕ → Attempt α)
    (rand : ℕ → ℚ) : RetryTrace α :=
  retryLoop cfg f rand 1 cfg.max_attempts cfg.base_delay

/-- The delay that the retry loop uses before attempt `n + 2` (equivalently
after `n + 1` failed attempts): base_delay stepped `n` times by
`delay := min(delay * backoff_factor, max_delay)`. -/
def delayAt (cfg : RetryConfig) (n : ℕ) : ℚ :=
  (nextDelay cfg)^[n] cfg.base_delay

/-- One recorded error of ErrorTracker (resilience.py lines 199-205):
timestamp, source, error_type, message and the context dict. -/
structure ErrorEntry where
  timestamp : ℚ
  source : String
  error_type : String
  message : String
  context : List (String × String)
  deriving DecidableEq, Repr

/-- ErrorTracker of resilience.py: the entry list and the max_entries
bound. -/
structure ErrorTracker where
  entries : List ErrorEntry
  max_entries : ℕ
  deriving DecidableEq, Repr

/-- Python's `entries[-n:]`: the last `n` elements — except that for
`n = 0` the slice `[-0:]` is `[0:]`, the whole list. -/
def pySliceLastN {α : Type} (l : List α) (n : ℕ) : List α :=
  if n = 0 then l else l.drop (l.length - n)

/-- ErrorTracker.record at time `now`: append the entry, then truncate with
`entries[-max:]` when the length exceeds max_entries. -/
def ErrorTracker.record (t : ErrorTracker) (now : ℚ) (source : String)
    (error : PyExc) (context : List (String × String)) : ErrorTracker :=
  let entry : ErrorEntry := ⟨now, source, error.excType, error.excMsg, context⟩
  let es := t.entries ++ [entry]
  if es.length > t.max_entries then
    { t with entries := pySliceLastN es t.max_entries }
  else
    { t with entries := es }

/-- Python truthiness of an optional string argument (`if source:`):
false for None and for the empty string. -/
def pyTruthy : Option String → Bool
  | none => false
  | some s => s ≠ ""

/-- ErrorTracker.get_errors: entries newest-first, filtered by exact source
match when a truthy source is given, truncated to `limit`. -/
def ErrorTracker.get_errors (t : ErrorTracker) (source : Option String)
    (limit : ℕ) : List ErrorEntry :=
  let es := t.entries.reverse
  let es := if pyTruthy source then
      es.filter (fun e => some e.source = source)
    else es
  es.take limit

/-- ErrorTracker.count. -/
def ErrorTracker.count (t : ErrorTracker) : ℕ :=
  t.entries.length

/-- State threaded through the attempts of _resilient_call: the adapter's
circuit breaker and how many times the underlying provider function has
actually been invoked so far. -/
structure ResilientState where
  breaker : CircuitBreaker
  funcCalls : ℕ
  deriving DecidableEq, Repr

/-- One attempt of the inner function of _resilient_call
(`self._get_circuit_breaker().call(func, *args, **kwargs)`), at time `t`.
The underlying provider function is modelled by its outcome per invocation
index `func`. A circuitOpen rejection surfaces to the retry wrapper as the
raised CircuitBreakerError; the function-invocation counter advances
exactly when the breaker invoked the function. -/
def resilientAttempt {α : Type} (st : ResilientState) (t : ℚ)
    (func : ℕ → Except PyExc α) : Except PyExc α × ResilientState :=
  let r := st.breaker.call t (func st.funcCalls)
  match r.1 with
  | .ok a => (.ok a, ⟨r.2.1, st.funcCalls + 1⟩)
  | .circuitOpen w => (.error (.circuitBreakerError w), ⟨r.2.1, st.funcCalls⟩)
  | .raised e => (.error e, ⟨r.2.1, st.funcCalls + 1⟩)

/-- The retry loop of base.py line 87 specialised as written at that call
site: `@retry(max_attempts=3, base_delay=1.0,
retryable_exceptions=(Exception,))`, hence defaults max_delay=30.0,
backoff_factor=2.0, jitter=True, and every exception — the
CircuitBreakerError included, being a subclass of Exception — is
retryable. `times t` is the wall-clock time at attempt `t`, `rand` the
random.random() draws for the jitter. Returns the final result, the final
state and the slept delays. -/
def resilientLoop {α : Type} (func : ℕ → Except PyExc α)
    (times rand : ℕ → ℚ) :
    ℕ → ℕ → ℚ → ResilientState → RetryResult α × ResilientState × List ℚ
  | _, 0, _, st => (.noAttempts, st, [])
  | attempt, remaining + 1, delay, st =>
    let r := resilientAttempt st (times attempt) func
    match r.1 with
    | .ok a => (.ok a, r.2, [])
    | .error e =>
      if remaining = 0 then
        (.raised e, r.2, [])
      else
        let actual := jitterOf true (rand attempt) delay
        let rest := resilientLoop func times rand (attempt + 1) remaining
          (min (delay * 2) 30) r.2
        (rest.1, rest.2.1, actual :: rest.2.2)

/-- Result of ProviderAdapter._resilient_call: what propagates to the
caller, the final breaker state, the number of invocations of the
underlying provider function, the slept delays, and the error tracker
after the call. -/
structure ResilientCallResult (α : Type) where
  result : RetryResult α
  breaker : CircuitBreaker
  funcCalls : ℕ
  sleeps : List ℚ
  tracker : ErrorTracker
  deriving DecidableEq, Repr

/-- ProviderAdapter._resilient_call (base.py lines 80-101): run the inner
retry-wrapped breaker call (3 attempts, base delay 1); a propagated
CircuitBreakerError is re-raised as is, while any other propagated
exception is first recorded into the error tracker with
source `provider.<provider_type>` and context
`{function: func.__name__, args_summary: str(args)[:200]}` (`tRecord` is
the time at which the entry is stamped). -/
def resilient_call {α : Type} (provider_type : String)
    (funcName : String) (argsStr : String) (tracker : ErrorTracker)
    (cb : CircuitBreaker) (func : ℕ → Except PyExc α)
    (times rand : ℕ → ℚ) (tRecord : ℚ) : ResilientCallResult α :=
  let r := resilientLoop func times rand 1 3 1 ⟨cb, 0⟩
  let tr :=
    match r.1 with
    | .raised (.circuitBreakerError _) => tracker
    | .raised e =>
      tracker.record tRecord ("provider." ++ provider_type) e
        [("function", funcName), ("args_summary", argsStr.take 200)]
    | _ => tracker
  ⟨r.1, r.2.1.breaker, r.2.1.funcCalls, r.2.2, tr⟩

/-- BudgetRule row (models/budget.py), restricted to the fields
budget_monitor.py reads. -/
structure BudgetRule where
  id : String
  provider_id : Option String
  monthly_limit : ℚ
  alert_threshold : ℚ
  action_on_exceed : String
  is_active : Bool
  deriving DecidableEq, Repr

/-- SpendingRecord row (models/budget.py), restricted to the fields
budget_monitor.py reads. -/
structure SpendingRecord where
  provider_id : String
  period : String
  amount : ℚ
  deriving DecidableEq, Repr

/-- CloudResource row (models/resource.py), restricted to the fields
budget_monitor.py reads. -/
structure CloudResource where
  id : String
  provider_id : String
  display_name : String
  status : String
  protection_level : String
  auto_terminate : Bool
  monthly_cost_estimate : ℚ
  deriving DecidableEq, Repr

/-- The database tables that budget_monitor.py queries. -/
structure Db where
  budget_rules : List BudgetRule
  spending : List SpendingRecord
  resources : List CloudResource
  deriving DecidableEq, Repr

/-- get_spending (budget_monitor.py lines 21-27): sum of spending amounts
for the period, filtered to one provider when the provider_id argument is
truthy. -/
def get_spending (db : Db) (provider_id : Option String) (period : String) :
    ℚ :=
  let rs := db.spending.filter (fun r => r.period = period)
  let rs := if pyTruthy provider_id then
      rs.filter (fun r => some r.provider_id = provider_id)
    else rs
  (rs.map (fun r => r.amount)).sum

/-- An alert message of check_budget, modelled by the data the f-string of
budget_monitor.py lines 76 / 79-81 interpolates. -/
inductive AlertMsg where
  | exceeded (spent limit : ℚ)
  | warning (spent limit utilization threshold : ℚ)
  deriving DecidableEq, Repr

/-- BudgetStatus (api/schemas.py lines 167-176), with alerts carried as
structured messages. -/
structure BudgetStatus where
  provider_id : Option String
  period : String
  total_spent : ℚ
  monthly_limit : ℚ
  utilization : ℚ
  status : String
  action_on_exceed : String
  alerts : List AlertMsg
  deriving DecidableEq, Repr

/-- The active budget rules in scope of a check_budget call
(budget_monitor.py lines 60-64): active rules, and when the provider_id
argument is truthy only the rules for that provider or the global
(provider_id NULL) rules. -/
def scopeRules (db : Db) (provider_id : Option String) : List BudgetRule :=
  let rs := db.budget_rules.filter (fun r => r.is_active)
  if pyTruthy provider_id then
    rs.filter (fun r => r.provider_id = provider_id ∨ r.provider_id = none)
  else rs

/-- The loop body of check_budget (budget_monitor.py lines 69-94):
evaluate one rule for the period. -/
def evalRule (db : Db) (period : String) (rule : BudgetRule) : BudgetStatus :=
  let spent := get_spending db rule.provider_id period
  let utilization := if rule.monthly_limit > 0 then spent / rule.monthly_limit
    else 0
  let sa : String × List AlertMsg :=
    if utilization ≥ 1 then
      ("exceeded", [.exceeded spent rule.monthly_limit])
    else if utilization ≥ rule.alert_threshold then
      ("warning",
        [.warning spent rule.monthly_limit utilization rule.alert_threshold])
    else
      ("ok", [])
  ⟨rule.provider_id, period, spent, rule.monthly_limit, utilization, sa.1,
    rule.action_on_exceed, sa.2⟩

/-- check_budget (budget_monitor.py lines 58-97): one BudgetStatus per
rule in scope, in rule order, each evaluated independently. -/
def check_budget (db : Db) (provider_id : Option String) (period : String) :
    List BudgetStatus :=
  (scopeRules db provider_id).map (evalRule db period)

/-- Insert a resource into a list sorted by monthly_cost_estimate
descending, keeping it sorted (model of the SQL ORDER BY ... DESC of
budget_monitor.py line 160). -/
def insertByCostDesc (r : CloudResource) :
    List CloudResource → List CloudResource
  | [] => [r]
  | x :: xs =>
    if r.monthly_cost_estimate ≥ x.monthly_cost_estimate then r :: x :: xs
    else x :: insertByCostDesc r xs

/-- Sort resources by monthly_cost_estimate descending (most expensive
first). -/
def sortByCostDesc : List CloudResource → List CloudResource
  | [] => []
  | x :: xs => insertByCostDesc x (sortByCostDesc xs)

/-- _get_enforceable_resources (budget_monitor.py lines 141-160): running,
non-critical resources, scoped to the provider when the provider_id is
truthy, further restricted per action (terminate_ephemeral: auto_terminate
and ephemeral; scale_down: auto_terminate), ordered by
monthly_cost_estimate descending. -/
def get_enforceable_resources (db : Db) (provider_id : Option String)
    (action : String) : List CloudResource :=
  let q := db.resources.filter
    (fun r => r.status = "running" ∧ r.protection_level ≠ "critical")
  let q := if pyTruthy provider_id then
      q.filter (fun r => some r.provider_id = provider_id)
    else q
  let q :=
    if action = "terminate_ephemeral" then
      q.filter (fun r => r.auto_terminate ∧ r.protection_level = "ephemeral")
    else if action = "scale_down" then
      q.filter (fun r => r.auto_terminate)
    else q
  sortByCostDesc q

/-- The `details.reason` value of an enforcement ActionLog
(budget_monitor.py line 122): the first alert of the status, or the
literal default text when the status has no alerts. -/
inductive Reason where
  | msg (a : AlertMsg)
  | defaultText
  deriving DecidableEq, Repr

/-- `bs.alerts[0] if bs.alerts else "Budget exceeded"`. -/
def reasonOf (bs : BudgetStatus) : Reason :=
  match bs.alerts with
  | [] => .defaultText
  | a :: _ => .msg a

/-- An ActionLog row written by enforce_budget (budget_monitor.py lines
117-124), restricted to the fields it sets. -/
structure ActionLogRow where
  resource_id : String
  action_type : String
  status : String
  initiated_by : String
  reason : Reason
  deriving DecidableEq, Repr

/-- One element of the actions_taken list returned by enforce_budget: the
alert-action dict of lines 109-113 or the per-resource dict of lines
125-131 (whose detail text is `<action_type> triggered by budget
enforcement`). -/
inductive ActionEntry where
  | alert (provider_id : Option String) (detail : Reason)
  | resourceAction (provider_id : Option String) (resource_id : String)
      (resource_name : String) (action : String)
  deriving DecidableEq, Repr

/-- A provider operation issued through the adapter layer (a scale_down or
terminate call on a resource). Carried in EnforceResult so that what
enforce_budget asks providers to do is part of its observable behaviour;
the enforcement loop of budget_monitor.py lines 115-132 contains no
adapter or registry call, so the embedded function never emits one. -/
structure ProviderOp where
  op : String
  resource_id : String
  deriving DecidableEq, Repr

/-- Observable behaviour of enforce_budget: the returned actions_taken
list, the ActionLog rows added to the database, and the provider
operations issued. -/
structure EnforceResult where
  actions : List ActionEntry
  logs : List ActionLogRow
  providerOps : List ProviderOp
  deriving DecidableEq, Repr

/-- Concatenation of enforcement results in order. -/
def EnforceResult.append (a b : EnforceResult) : EnforceResult :=
  ⟨a.actions ++ b.actions, a.logs ++ b.logs, a.providerOps ++ b.providerOps⟩

/-- The loop body of enforce_budget for one BudgetStatus (budget_monitor.py
lines 104-132): skip non-exceeded statuses; an `alert` action appends one
alert entry; `scale_down` / `terminate_ephemeral` walk the enforceable
resources, adding per resource one pending ActionLog row and one action
entry (action_type `terminate` for terminate_ephemeral, else
`scale_down`); any other action value does nothing. -/
def enforce_status (db : Db) (bs : BudgetStatus) : EnforceResult :=
  if bs.status ≠ "exceeded" then ⟨[], [], []⟩
  else if bs.action_on_exceed = "alert" then
    ⟨[.alert bs.provider_id (reasonOf bs)], [], []⟩
  else if bs.action_on_exceed = "scale_down" ∨
      bs.action_on_exceed = "terminate_ephemeral" then
    let action_type := if bs.action_on_exceed = "terminate_ephemeral" then
        "terminate"
      else "scale_down"
    let targets := get_enforceable_resources db bs.provider_id
      bs.action_on_exceed
    ⟨targets.map (fun r =>
        .resourceAction bs.provider_id r.id r.display_name action_type),
      targets.map (fun r =>
        ⟨r.id, action_type, "pending", "budget_monitor", reasonOf bs⟩),
      []⟩
  else ⟨[], [], []⟩

/-- enforce_budget (budget_monitor.py lines 100-138): check the budgets,
then run the enforcement loop body over every status in order. -/
def enforce_budget (db : Db) (provider_id : Option String)
    (period : String) : EnforceResult :=
  ((check_budget db provider_id period).map (enforce_status db)).foldl
    EnforceResult.append ⟨[], [], []⟩

/-- A sequence of record_failure calls with no intervening success, at the
given times. -/
def record_failures (cb : CircuitBreaker) (ts : List ℚ) : CircuitBreaker :=
  ts.foldl (fun c t => c.record_failure t) cb

lemma record_failures_nil (cb : CircuitBreaker) : record_failures cb [] = cb :=
  rfl

lemma record_failures_cons (cb : CircuitBreaker) (t : ℚ) (ts : List ℚ) :
    record_failures cb (t :: ts) = record_failures (cb.record_failure t) ts :=
  rfl

lemma record_failure_closed_below (cb : CircuitBreaker) (t : ℚ)
    (hst : cb.state = .CLOSED)
    (hlt : cb.failure_count + 1 < cb.failure_threshold) :
    (cb.record_failure t).state = .CLOSED ∧
      (cb.record_failure t).failure_count = cb.failure_count + 1 ∧
      (cb.record_failure t).failure_threshold = cb.failure_threshold := by
  have h1 : cb.state ≠ .HALF_OPEN := by rw [hst]; intro h; cases h
  have h2 : ¬ cb.failure_count + 1 ≥ cb.failure_threshold := by omega
  simp only [CircuitBreaker.record_failure, if_neg h1, if_neg h2]
  simp [hst]

/-- From CLOSED, a run of consecutive failures whose count exactly reaches
failure_threshold leaves the breaker OPEN with that failure count. -/
lemma record_failures_reach_threshold :
    ∀ (ts : List ℚ) (cb : CircuitBreaker), cb.state = .CLOSED →
    cb.failure_count + ts.length = cb.failure_threshold → 1 ≤ ts.length →
    (record_failures cb ts).state = .OPEN ∧
      (record_failures cb ts).failure_count = cb.failure_threshold := by
  intro ts
  induction ts with
  | nil => intro cb _ _ h; simp at h
  | cons t ts ih =>
    intro cb hst hcnt _
    rw [record_failures_cons]
    by_cases hts : ts = []
    · subst hts
      have h1 : cb.state ≠ .HALF_OPEN := by rw [hst]; intro h; cases h
      have h2 : cb.failure_count + 1 ≥ cb.failure_threshold := by
        simp at hcnt; omega
      rw [record_failures_nil]
      simp only [CircuitBreaker.record_failure, if_neg h1, if_pos h2]
      simp at hcnt ⊢
      omega
    · have hlen : 1 ≤ ts.length := by
        cases ts with
        | nil => exact absurd rfl hts
        | cons a b => simp
      have hlt : cb.failure_count + 1 < cb.failure_threshold := by
        simp at hcnt; omega
      obtain ⟨hs, hc, hth⟩ := record_failure_closed_below cb t hst hlt
      have := ih (cb.record_failure t) hs (by rw [hc, hth]; simp at hcnt; omega)
        hlen
      rw [hth] at this
      exact this

/-- C10: for every circuit breaker in any state — including OPEN, not only
HALF_OPEN — record_success unconditionally sets the state to CLOSED and
the failure count to 0, so a direct record_success on an OPEN breaker
closes it without waiting for reset_timeout or a half-open probe. -/
theorem record_success_always_closes (cb : CircuitBreaker) :
    (cb.record_success).state = .CLOSED ∧
      (cb.record_success).failure_count = 0 :=
  ⟨rfl, rfl⟩


lemma record_failure_reset_timeout (cb : CircuitBreaker) (t : ℚ) :
    (cb.record_failure t).reset_timeout = cb.reset_timeout := by
  simp only [CircuitBreaker.record_failure]
  split_ifs <;> rfl

lemma record_failures_reset_timeout :
    ∀ (ts : List ℚ) (cb : CircuitBreaker),
    (record_failures cb ts).reset_timeout = cb.reset_timeout := by
  intro ts
  induction ts with
  | nil => intro cb; rfl
  | cons t ts ih =>
    intro cb
    rw [record_failures_cons, ih, record_failure_reset_timeout]

/-- C5: a breaker starting CLOSED with failure count 0 is OPEN after
failure_threshold consecutive record_failure calls with no intervening
success; while OPEN, once at least reset_timeout has elapsed since the
last failure, the next state read returns HALF_OPEN; from HALF_OPEN a
record_success yields CLOSED with failure count 0, and a record_failure
yields OPEN again. -/
theorem circuit_breaker_lifecycle (ft : ℕ) (rt : ℚ) (nm : String)
    (ts : List ℚ) (hft : 1 ≤ ft) (hlen : ts.length = ft) :
    (record_failures (CircuitBreaker.mkNew ft rt nm) ts).state = .OPEN ∧
    ∀ tr : ℚ,
      tr - (record_failures (CircuitBreaker.mkNew ft rt nm)
        ts).last_failure_time ≥ rt →
      ((record_failures (CircuitBreaker.mkNew ft rt nm) ts).readState tr).1
          = .HALF_OPEN ∧
      ((((record_failures (CircuitBreaker.mkNew ft rt nm) ts).readState
          tr).2).record_success).state = .CLOSED ∧
      ((((record_failures (CircuitBreaker.mkNew ft rt nm) ts).readState
          tr).2).record_success).failure_count = 0 ∧
      ∀ tf : ℚ,
        ((((record_failures (CircuitBreaker.mkNew ft rt nm) ts).readState
            tr).2).record_failure tf).state = .OPEN := by
  have hopen := record_failures_reach_threshold ts
    (CircuitBreaker.mkNew ft rt nm) rfl
    (by simp [CircuitBreaker.mkNew, hlen]) (by omega)
  refine ⟨hopen.1, ?_⟩
  intro tr htr
  have hrt : (record_failures (CircuitBreaker.mkNew ft rt nm)
      ts).reset_timeout = rt := record_failures_reset_timeout ts _
  have hread : (record_failures (CircuitBreaker.mkNew ft rt nm)
        ts).readState tr =
      (.HALF_OPEN, { record_failures (CircuitBreaker.mkNew ft rt nm) ts with
        state := .HALF_OPEN }) := by
    simp only [CircuitBreaker.readState]
    rw [if_pos ⟨hopen.1, by rw [hrt]; exact htr⟩]
  rw [hread]
  refine ⟨rfl, rfl, rfl, ?_⟩
  intro tf
  simp [CircuitBreaker.record_failure]

/-- Witness for C5 at the spec's concrete numbers: failure_threshold 1,
reset_timeout 0.01, one failure at time 0, state read at time 0.01, then a
probe success, and alternatively a probe failure at time 1. -/
theorem circuit_breaker_lifecycle_witness :
    (record_failures (CircuitBreaker.mkNew 1 (1/100) ("x")) [0]).state
        = .OPEN ∧
    ((record_failures (CircuitBreaker.mkNew 1 (1/100) ("x"))
        [0]).readState (1/100)).1 = .HALF_OPEN ∧
    ((((record_failures (CircuitBreaker.mkNew 1 (1/100) ("x"))
        [0]).readState (1/100)).2).record_success).state = .CLOSED ∧
    ((((record_failures (CircuitBreaker.mkNew 1 (1/100) ("x"))
        [0]).readState (1/100)).2).record_success).failure_count = 0 ∧
    ((((record_failures (CircuitBreaker.mkNew 1 (1/100) ("x"))
        [0]).readState (1/100)).2).record_failure 1).state = .OPEN := by
  have h := circuit_breaker_lifecycle 1 (1/100) ("x") [0] (by decide)
    (by decide)
  have h2 := h.2 (1/100) (by
    norm_num [record_failures, CircuitBreaker.record_failure,
      CircuitBreaker.mkNew])
  exact ⟨h.1, h2.1, h2.2.1, h2.2.2.1, h2.2.2.2 1⟩

/-- C6: when the breaker's state reads OPEN, call(fn) fails immediately
with a CircuitOpen rejection carrying the configured reset_timeout as the
wait hint — an upper bound on the remaining wait until the probe is
allowed — without invoking fn and without changing the failure count;
otherwise call(fn) invokes fn, records success on a normal return, and
records failure then re-raises on a propagated exception. -/
theorem breaker_call_semantics {α : Type} (cb : CircuitBreaker) (now : ℚ)
    (fn : Except PyExc α) :
    ((cb.readState now).1 = .OPEN →
      cb.call now fn =
        (.circuitOpen cb.reset_timeout, (cb.readState now).2, false) ∧
      ((cb.readState now).2).failure_count = cb.failure_count ∧
      (cb.last_failure_time ≤ now →
        cb.reset_timeout - (now - cb.last_failure_time) ≤ cb.reset_timeout))
    ∧
    ((cb.readState now).1 ≠ .OPEN →
      (cb.call now fn).2.2 = true ∧
      (∀ a : α, fn = .ok a →
        cb.call now fn = (.ok a, ((cb.readState now).2).record_success,
          true)) ∧
      (∀ e : PyExc, fn = .error e →
        cb.call now fn = (.raised e, ((cb.readState now).2).record_failure
          now, true))) := by
  constructor
  · intro hopen
    have hrt : ((cb.readState now).2).reset_timeout = cb.reset_timeout := by
      simp only [CircuitBreaker.readState]
      split <;> rfl
    have hfc : ((cb.readState now).2).failure_count = cb.failure_count := by
      simp only [CircuitBreaker.readState]
      split <;> rfl
    refine ⟨?_, hfc, ?_⟩
    · simp only [CircuitBreaker.call]
      rw [if_pos hopen, hrt]
    · intro hle
      have : 0 ≤ now - cb.last_failure_time := by linarith
      linarith
  · intro hnot
    have hcall : cb.call now fn =
        match fn with
        | .ok a => (.ok a, ((cb.readState now).2).record_success, true)
        | .error e => (.raised e, ((cb.readState now).2).record_failure now,
            true) := by
      simp only [CircuitBreaker.call]
      rw [if_neg hnot]
    refine ⟨?_, ?_, ?_⟩
    · rw [hcall]; cases fn <;> rfl
    · intro a ha; rw [hcall, ha]
    · intro e he; rw [hcall, he]

/-- Witness for C6: an OPEN breaker (5 failures, last at time 0, timeout
60) rejects a call at time 10 without invoking the function or changing
the failure count, and a CLOSED breaker invokes the function and records
its failure. -/
theorem breaker_call_semantics_witness :
    ((⟨5, 60, "oci", .OPEN, 5, 0⟩ : CircuitBreaker).call 10
        (.ok (0 : ℚ)) =
      (.circuitOpen 60, ⟨5, 60, "oci", .OPEN, 5, 0⟩, false)) ∧
    ((⟨5, 60, "oci", .CLOSED, 0, 0⟩ : CircuitBreaker).call 10
        ((.error (.other ("ValueError") ("boom"))) : Except PyExc ℚ) =
      (.raised (.other ("ValueError") ("boom")),
        ⟨5, 60, "oci", .CLOSED, 1, 10⟩, true)) := by
  constructor
  · have h := (breaker_call_semantics
      (⟨5, 60, "oci", .OPEN, 5, 0⟩ : CircuitBreaker) 10
      ((.ok 0) : Except PyExc ℚ)).1
      (by norm_num [CircuitBreaker.readState])
    rw [h.1]
    norm_num [CircuitBreaker.readState]
  · have h := ((breaker_call_semantics
      (⟨5, 60, "oci", .CLOSED, 0, 0⟩ : CircuitBreaker) 10
      ((.error (.other ("ValueError") ("boom"))) : Except PyExc ℚ)).2
      (by simp [CircuitBreaker.readState])).2.2
      (.other ("ValueError") ("boom")) rfl
    rw [h]
    simp [CircuitBreaker.readState, CircuitBreaker.record_failure]

/-- The arguments of one ErrorTracker.record call. -/
structure RawErr where
  now : ℚ
  source : String
  error : PyExc
  context : List (String × String)
  deriving DecidableEq, Repr

/-- The entry a record call appends (resilience.py lines 199-205). -/
def entryOf (r : RawErr) : ErrorEntry :=
  ⟨r.now, r.source, r.error.excType, r.error.excMsg, r.context⟩

/-- A sequence of record calls. -/
def recordAll (t : ErrorTracker) (rs : List RawErr) : ErrorTracker :=
  rs.foldl (fun a r => a.record r.now r.source r.error r.context) t

lemma record_max_entries (t : ErrorTracker) (now : ℚ) (src : String)
    (err : PyExc) (ctx : List (String × String)) :
    (t.record now src err ctx).max_entries = t.max_entries := by
  simp only [ErrorTracker.record]
  split <;> rfl

lemma record_entries (t : ErrorTracker) (now : ℚ) (src : String)
    (err : PyExc) (ctx : List (String × String))
    (hmax : t.max_entries ≠ 0) :
    (t.record now src err ctx).entries =
      (t.entries ++ [entryOf ⟨now, src, err, ctx⟩]).rtake t.max_entries := by
  simp only [ErrorTracker.record, entryOf]
  split
  · next h =>
    simp only [pySliceLastN, if_neg hmax, List.rtake]
  · next h =>
    simp only [not_lt] at h
    simp only [List.rtake]
    have hz : (t.entries ++ [(⟨now, src, err.excType, err.excMsg, ctx⟩ :
        ErrorEntry)]).length - t.max_entries = 0 := by omega
    rw [hz, List.drop_zero]

/-- Appending more elements and re-taking the tail commutes with having
already taken the tail: keeping the last `n` is a fold-invariant. -/
lemma rtake_append_rtake {α : Type} (n : ℕ) (l m : List α) :
    (l.rtake n ++ m).rtake n = (l ++ m).rtake n := by
  simp only [List.rtake_eq_reverse_take_reverse, List.reverse_append,
    List.reverse_reverse]
  rw [List.take_append_eq_append_take, List.take_append_eq_append_take,
    List.take_take, Nat.min_eq_left (Nat.sub_le _ _)]

lemma recordAll_entries :
    ∀ (rs : List RawErr) (t : ErrorTracker), t.max_entries ≠ 0 →
    t.entries.length ≤ t.max_entries →
    (recordAll t rs).entries = (t.entries ++ rs.map entryOf).rtake
        t.max_entries ∧
      (recordAll t rs).max_entries = t.max_entries := by
  intro rs
  induction rs with
  | nil =>
    intro t hmax hlen
    constructor
    · rw [List.map_nil, List.append_nil, List.rtake]
      have : t.entries.length - t.max_entries = 0 := by omega
      rw [this, List.drop_zero]
      rfl
    · rfl
  | cons r rs ih =>
    intro t hmax hlen
    have hrec : recordAll t (r :: rs) =
        recordAll (t.record r.now r.source r.error r.context) rs := rfl
    have hmax2 := record_max_entries t r.now r.source r.error r.context
    have hent := record_entries t r.now r.source r.error r.context hmax
    have hlen2 : (t.record r.now r.source r.error r.context).entries.length
        ≤ (t.record r.now r.source r.error r.context).max_entries := by
      rw [hent, hmax2]
      simp only [List.rtake, List.length_drop]
      omega
    obtain ⟨h1, h2⟩ := ih (t.record r.now r.source r.error r.context)
      (by rw [hmax2]; exact hmax) hlen2
    rw [hrec]
    constructor
    · rw [h1, hent, hmax2, rtake_append_rtake]
      simp
    · rw [h2, hmax2]

/-- C9 (amended: capacity at least 1): for every ErrorTracker with
capacity max_entries ≥ 1, after recording n > max_entries errors the count
equals max_entries and the retained entries are the max_entries most
recently recorded; get_errors returns entries newest-first, filtered to
exact source match when a non-empty source is given, truncated to limit.
(For max_entries = 0 the Python truncation `entries[-0:]` is the whole
list, so the bound does not hold there — see the counterexample.) -/
theorem error_tracker_ring_buffer (maxE : ℕ) (rs : List RawErr)
    (src : String) (limit : ℕ) (hmax : 1 ≤ maxE) (hn : rs.length > maxE)
    (hsrc : src ≠ "") :
    (recordAll ⟨[], maxE⟩ rs).count = maxE ∧
    (recordAll ⟨[], maxE⟩ rs).entries = (rs.map entryOf).rtake maxE ∧
    (recordAll ⟨[], maxE⟩ rs).get_errors none limit =
      ((rs.map entryOf).rtake maxE).reverse.take limit ∧
    (recordAll ⟨[], maxE⟩ rs).get_errors (some src) limit =
      (((rs.map entryOf).rtake maxE).reverse.filter
        (fun e => e.source = src)).take limit := by
  obtain ⟨hent, hm⟩ := recordAll_entries rs ⟨[], maxE⟩
    (by show maxE ≠ 0; omega) (by show 0 ≤ maxE; omega)
  simp only [List.nil_append] at hent
  refine ⟨?_, hent, ?_, ?_⟩
  · rw [ErrorTracker.count, hent]
    simp only [List.rtake, List.length_drop, List.length_map]
    omega
  · simp only [ErrorTracker.get_errors, hent, pyTruthy]
    rfl
  · simp only [ErrorTracker.get_errors, hent, pyTruthy, hsrc]
    simp [hsrc]

/-- Witness for C9: capacity 2, three records, source filter `a`. -/
theorem error_tracker_ring_buffer_witness :
    1 ≤ 2 ∧
    ([(⟨1, "a", .other ("E") ("m"), []⟩ : RawErr),
      ⟨2, "b", .other ("E") ("m"), []⟩,
      ⟨3, "a", .other ("E") ("m"), []⟩] : List RawErr).length > 2 ∧
    ("a" : String) ≠ "" ∧
    ((recordAll ⟨[], 2⟩ [⟨1, "a", .other ("E") ("m"), []⟩,
        ⟨2, "b", .other ("E") ("m"), []⟩,
        ⟨3, "a", .other ("E") ("m"), []⟩]).count = 2 ∧
      (recordAll ⟨[], 2⟩ [⟨1, "a", .other ("E") ("m"), []⟩,
        ⟨2, "b", .other ("E") ("m"), []⟩,
        ⟨3, "a", .other ("E") ("m"), []⟩]).entries =
        (([⟨1, "a", .other ("E") ("m"), []⟩,
          ⟨2, "b", .other ("E") ("m"), []⟩,
          ⟨3, "a", .other ("E") ("m"), []⟩] : List RawErr).map
            entryOf).rtake 2 ∧
      (recordAll ⟨[], 2⟩ [⟨1, "a", .other ("E") ("m"), []⟩,
        ⟨2, "b", .other ("E") ("m"), []⟩,
        ⟨3, "a", .other ("E") ("m"), []⟩]).get_errors none 2 =
        ((([⟨1, "a", .other ("E") ("m"), []⟩,
          ⟨2, "b", .other ("E") ("m"), []⟩,
          ⟨3, "a", .other ("E") ("m"), []⟩] : List RawErr).map
            entryOf).rtake 2).reverse.take 2 ∧
      (recordAll ⟨[], 2⟩ [⟨1, "a", .other ("E") ("m"), []⟩,
        ⟨2, "b", .other ("E") ("m"), []⟩,
        ⟨3, "a", .other ("E") ("m"), []⟩]).get_errors (some ("a")) 2 =
        (((([⟨1, "a", .other ("E") ("m"), []⟩,
          ⟨2, "b", .other ("E") ("m"), []⟩,
          ⟨3, "a", .other ("E") ("m"), []⟩] : List RawErr).map
            entryOf).rtake 2).reverse.filter
              (fun e => e.source = "a")).take 2) :=
  ⟨by decide, by decide, by decide,
    error_tracker_ring_buffer 2
      [⟨1, "a", .other ("E") ("m"), []⟩, ⟨2, "b", .other ("E") ("m"), []⟩,
        ⟨3, "a", .other ("E") ("m"), []⟩]
      ("a") 2 (by decide) (by decide) (by decide)⟩

/-- C9 counterexample: with capacity max_entries = 0, after recording
one error (so n = 1 > max_entries) the count is 1, not max_entries = 0:
Python's truncation `entries[-0:]` keeps the whole list. -/
theorem error_tracker_zero_capacity_counterexample :
    (recordAll ⟨[], 0⟩ [⟨1, "s", .other ("E") ("m"), []⟩]).count = 1 ∧
    ¬ (recordAll ⟨[], 0⟩ [⟨1, "s", .other ("E") ("m"), []⟩]).count = 0 := by
  constructor
  · simp [recordAll, ErrorTracker.record, ErrorTracker.count, pySliceLastN]
  · simp [recordAll, ErrorTracker.record, ErrorTracker.count, pySliceLastN]

lemma mem_insertByCostDesc (a r : CloudResource) :
    ∀ l : List CloudResource, a ∈ insertByCostDesc r l ↔ a = r ∨ a ∈ l := by
  intro l
  induction l with
  | nil => simp [insertByCostDesc]
  | cons x xs ih =>
    simp only [insertByCostDesc]
    split
    · simp
    · simp [ih]
      tauto

lemma mem_sortByCostDesc (a : CloudResource) :
    ∀ l : List CloudResource, a ∈ sortByCostDesc l ↔ a ∈ l := by
  intro l
  induction l with
  | nil => simp [sortByCostDesc]
  | cons x xs ih =>
    simp only [sortByCostDesc, mem_insertByCostDesc, ih]
    simp

lemma pairwise_insertByCostDesc (r : CloudResource) :
    ∀ l : List CloudResource,
    l.Pairwise (fun a b => b.monthly_cost_estimate ≤ a.monthly_cost_estimate)
    → (insertByCostDesc r l).Pairwise
      (fun a b => b.monthly_cost_estimate ≤ a.monthly_cost_estimate) := by
  intro l
  induction l with
  | nil => intro _; simp [insertByCostDesc]
  | cons x xs ih =>
    intro hp
    rw [List.pairwise_cons] at hp
    simp only [insertByCostDesc]
    split
    · next hge =>
      rw [List.pairwise_cons]
      constructor
      · intro b hb
        rcases List.mem_cons.mp hb with hbx | hbxs
        · subst hbx; exact hge
        · exact le_trans (hp.1 b hbxs) hge
      · rw [List.pairwise_cons]
        exact hp
    · next hlt =>
      rw [List.pairwise_cons]
      constructor
      · intro b hb
        rcases (mem_insertByCostDesc b r xs).mp hb with hbr | hbxs
        · subst hbr
          linarith [not_le.mp hlt]
        · exact hp.1 b hbxs
      · exact ih hp.2

lemma pairwise_sortByCostDesc :
    ∀ l : List CloudResource,
    (sortByCostDesc l).Pairwise
      (fun a b => b.monthly_cost_estimate ≤ a.monthly_cost_estimate) := by
  intro l
  induction l with
  | nil => simp [sortByCostDesc]
  | cons x xs ih => exact pairwise_insertByCostDesc x (sortByCostDesc xs) ih

/-- C4: every resource selected by the budget-enforcement target policy is
a running, non-critical row of the resource table, scoped to the rule's
provider when one is given, restricted to auto_terminate ∧ ephemeral for
terminate_ephemeral and to auto_terminate for scale_down; a critical
resource is never selected whatever its other flags; and the list is
ordered by monthly_cost_estimate descending. -/
theorem enforceable_resources_policy (db : Db) (pid : Option String)
    (action : String) :
    (get_enforceable_resources db pid action).Pairwise
      (fun a b => b.monthly_cost_estimate ≤ a.monthly_cost_estimate) ∧
    ∀ r ∈ get_enforceable_resources db pid action,
      r ∈ db.resources ∧
      r.status = "running" ∧
      r.protection_level ≠ "critical" ∧
      (pyTruthy pid = true → some r.provider_id = pid) ∧
      (action = "terminate_ephemeral" →
        r.auto_terminate = true ∧ r.protection_level = "ephemeral") ∧
      (action = "scale_down" → r.auto_terminate = true) := by
  constructor
  · exact pairwise_sortByCostDesc _
  · intro r hr
    rw [get_enforceable_resources, mem_sortByCostDesc] at hr
    have base : r ∈ db.resources ∧ r.status = "running" ∧
        r.protection_level ≠ "critical" ∧
        (pyTruthy pid = true → some r.provider_id = pid) := by
      split at hr
      · next ha =>
        rw [List.mem_filter] at hr
        obtain ⟨hr1, hr2⟩ := hr
        split at hr1
        · next hp =>
          rw [List.mem_filter] at hr1
          rw [List.mem_filter] at hr1
          obtain ⟨⟨hm, hrun⟩, hpv⟩ := hr1
          simp only [decide_eq_true_eq] at hrun hpv
          exact ⟨hm, hrun.1, hrun.2, fun _ => hpv⟩
        · next hp =>
          rw [List.mem_filter] at hr1
          obtain ⟨hm, hrun⟩ := hr1
          simp only [decide_eq_true_eq] at hrun
          exact ⟨hm, hrun.1, hrun.2, fun hc => absurd hc (by simp [hp])⟩
      · next ha =>
        split at hr
        · next hs =>
          rw [List.mem_filter] at hr
          obtain ⟨hr1, hr2⟩ := hr
          split at hr1
          · next hp =>
            rw [List.mem_filter] at hr1
            rw [List.mem_filter] at hr1
            obtain ⟨⟨hm, hrun⟩, hpv⟩ := hr1
            simp only [decide_eq_true_eq] at hrun hpv
            exact ⟨hm, hrun.1, hrun.2, fun _ => hpv⟩
          · next hp =>
            rw [List.mem_filter] at hr1
            obtain ⟨hm, hrun⟩ := hr1
            simp only [decide_eq_true_eq] at hrun
            exact ⟨hm, hrun.1, hrun.2, fun hc => absurd hc (by simp [hp])⟩
        · next hs =>
          split at hr
          · next hp =>
            rw [List.mem_filter] at hr
            rw [List.mem_filter] at hr
            obtain ⟨⟨hm, hrun⟩, hpv⟩ := hr
            simp only [decide_eq_true_eq] at hrun hpv
            exact ⟨hm, hrun.1, hrun.2, fun _ => hpv⟩
          · next hp =>
            rw [List.mem_filter] at hr
            obtain ⟨hm, hrun⟩ := hr
            simp only [decide_eq_true_eq] at hrun
            exact ⟨hm, hrun.1, hrun.2, fun hc => absurd hc (by simp [hp])⟩
    refine ⟨base.1, base.2.1, base.2.2.1, base.2.2.2, ?_, ?_⟩
    · intro ha
      rw [ha] at hr
      simp only [if_pos rfl, if_true] at hr
      rw [List.mem_filter] at hr
      have := hr.2
      simp only [decide_eq_true_eq] at this
      exact this
    · intro ha
      rw [ha] at hr
      have hne : ("scale_down" : String) ≠ "terminate_ephemeral" := by decide
      simp only [if_neg hne, if_pos rfl, if_true] at hr
      rw [List.mem_filter] at hr
      have := hr.2
      simp only [decide_eq_true_eq] at this
      exact this

/-- A two-resource table for exercising target selection: an expensive
critical resource and a cheaper ephemeral auto-terminate one. -/
def dbTargets : Db :=
  ⟨[], [],
    [⟨"res-crit", "p", "db-main", "running", "critical", false, 500⟩,
     ⟨"res-eph", "p", "vm-scratch", "running", "ephemeral", true, 50⟩]⟩

/-- Witness for C4: in dbTargets, the ephemeral resource is selected for
terminate_ephemeral and satisfies all the policy restrictions; the
critical resource (though five times as expensive) is not selected. -/
theorem enforceable_resources_policy_witness :
    ((⟨"res-eph", "p", "vm-scratch", "running", "ephemeral", true, 50⟩ :
        CloudResource) ∈
      get_enforceable_resources dbTargets (some ("p"))
        ("terminate_ephemeral")) ∧
    (⟨"res-eph", "p", "vm-scratch", "running", "ephemeral", true, 50⟩ :
      CloudResource).protection_level ≠ "critical" ∧
    (⟨"res-eph", "p", "vm-scratch", "running", "ephemeral", true, 50⟩ :
      CloudResource).auto_terminate = true ∧
    ((⟨"res-crit", "p", "db-main", "running", "critical", false, 500⟩ :
        CloudResource) ∈
      get_enforceable_resources dbTargets (some ("p"))
        ("terminate_ephemeral") → False) := by
  have hm : (⟨"res-eph", "p", "vm-scratch", "running", "ephemeral", true,
      50⟩ : CloudResource) ∈
      get_enforceable_resources dbTargets (some ("p"))
        ("terminate_ephemeral") := by
    decide
  have h := (enforceable_resources_policy dbTargets (some ("p"))
    ("terminate_ephemeral")).2 _ hm
  refine ⟨hm, h.2.2.1, (h.2.2.2.2.1 rfl).1, ?_⟩
  intro hc
  have hcrit := (enforceable_resources_policy dbTargets (some ("p"))
    ("terminate_ephemeral")).2 _ hc
  exact hcrit.2.2.1 rfl

/-- C8: check_budget produces exactly one status per active rule in scope
(rules evaluated independently, no merging), with utilization
spent / monthly_limit (0 for a zero limit); utilization ≥ 1 yields status
`exceeded` with one alert stating spent and limit, otherwise
utilization ≥ alert_threshold yields status `warning` with one alert, and
otherwise status `ok` with no alert. -/
theorem budget_check_classification (db : Db) (pid : Option String)
    (period : String) :
    check_budget db pid period = (scopeRules db pid).map (evalRule db period)
    ∧
    ∀ rule ∈ scopeRules db pid,
      (evalRule db period rule).total_spent =
        get_spending db rule.provider_id period ∧
      (evalRule db period rule).monthly_limit = rule.monthly_limit ∧
      (evalRule db period rule).utilization =
        (if rule.monthly_limit > 0 then
          get_spending db rule.provider_id period / rule.monthly_limit
        else 0) ∧
      ((evalRule db period rule).utilization ≥ 1 →
        (evalRule db period rule).status = "exceeded" ∧
        (evalRule db period rule).alerts =
          [.exceeded (get_spending db rule.provider_id period)
            rule.monthly_limit]) ∧
      (¬ (evalRule db period rule).utilization ≥ 1 →
        (evalRule db period rule).utilization ≥ rule.alert_threshold →
        (evalRule db period rule).status = "warning" ∧
        (evalRule db period rule).alerts.length = 1) ∧
      (¬ (evalRule db period rule).utilization ≥ 1 →
        ¬ (evalRule db period rule).utilization ≥ rule.alert_threshold →
        (evalRule db period rule).status = "ok" ∧
        (evalRule db period rule).alerts = []) := by
  refine ⟨rfl, ?_⟩
  intro rule _
  simp only [evalRule]
  split_ifs with h1 h2 h3 <;> simp_all

/-- The warning example: monthly_limit 100, alert_threshold 0.8, spent 85. -/
def ruleWarn : BudgetRule := ⟨"r1", some "p", 100, 8/10, "alert", true⟩

/-- Database holding ruleWarn and a spending record of 85 for 2026-02. -/
def dbWarn : Db := ⟨[ruleWarn], [⟨"p", "2026-02", 85⟩], []⟩

/-- Witness for C8: spent 85 of limit 100 with threshold 0.8 gives
utilization 0.85 and status `warning` with one alert. -/
theorem budget_check_classification_witness :
    (ruleWarn ∈ scopeRules dbWarn (some ("p"))) ∧
    (evalRule dbWarn ("2026-02") ruleWarn).utilization = 17/20 ∧
    (evalRule dbWarn ("2026-02") ruleWarn).status = "warning" ∧
    (evalRule dbWarn ("2026-02") ruleWarn).alerts.length = 1 := by
  have hm : ruleWarn ∈ scopeRules dbWarn (some ("p")) := by
    simp [scopeRules, dbWarn, ruleWarn, pyTruthy]
  have h := (budget_check_classification dbWarn (some ("p"))
    ("2026-02")).2 ruleWarn hm
  have hu : (evalRule dbWarn ("2026-02") ruleWarn).utilization = 17/20 := by
    rw [h.2.2.1]
    norm_num [get_spending, dbWarn, ruleWarn, pyTruthy]
  have hw := h.2.2.2.2.1 (by rw [hu]; norm_num)
    (by rw [hu]; norm_num [ruleWarn])
  exact ⟨hm, hu, hw.1, hw.2⟩

lemma enforce_status_providerOps (db : Db) (bs : BudgetStatus) :
    (enforce_status db bs).providerOps = [] := by
  simp only [enforce_status]
  split_ifs <;> rfl

lemma providerOps_foldl :
    ∀ (rs : List EnforceResult) (init : EnforceResult),
    (∀ r ∈ rs, r.providerOps = []) →
    (rs.foldl EnforceResult.append init).providerOps = init.providerOps := by
  intro rs
  induction rs with
  | nil => intro init _; rfl
  | cons r rs ih =>
    intro init h
    rw [List.foldl_cons,
      ih (init.append r) (fun x hx => h x (List.mem_cons_of_mem r hx))]
    simp [EnforceResult.append, h r (List.mem_cons_self r rs)]

/-- C3 (amended): for every exceeded budget status whose action_on_exceed
is scale_down or terminate_ephemeral, the enforcement loop records, per
selected target resource, exactly one action entry and one ActionLog row
with status `pending` (action_type terminate for terminate_ephemeral and
scale_down otherwise); it issues no provider operation itself; with zero
selected resources it records zero entries and no alert fallback entry;
and enforce_budget is exactly this loop over the checked statuses. -/
theorem enforce_budget_pending_actions (db : Db) (pid : Option String)
    (period : String) :
    (enforce_budget db pid period).providerOps = [] ∧
    enforce_budget db pid period =
      ((check_budget db pid period).map (enforce_status db)).foldl
        EnforceResult.append ⟨[], [], []⟩ ∧
    ∀ bs : BudgetStatus, bs.status = "exceeded" →
      bs.action_on_exceed = "scale_down" ∨
        bs.action_on_exceed = "terminate_ephemeral" →
      (enforce_status db bs).actions =
        (get_enforceable_resources db bs.provider_id
          bs.action_on_exceed).map
          (fun r => .resourceAction bs.provider_id r.id r.display_name
            (if bs.action_on_exceed = "terminate_ephemeral" then "terminate"
             else "scale_down")) ∧
      (enforce_status db bs).logs =
        (get_enforceable_resources db bs.provider_id
          bs.action_on_exceed).map
          (fun r => ⟨r.id,
            (if bs.action_on_exceed = "terminate_ephemeral" then "terminate"
             else "scale_down"), "pending", "budget_monitor", reasonOf bs⟩) ∧
      (enforce_status db bs).providerOps = [] ∧
      (get_enforceable_resources db bs.provider_id bs.action_on_exceed = []
        → enforce_status db bs = ⟨[], [], []⟩) := by
  refine ⟨?_, rfl, ?_⟩
  · have hall : ∀ r ∈ (check_budget db pid period).map (enforce_status db),
        r.providerOps = [] := by
      intro r hr
      rw [List.mem_map] at hr
      obtain ⟨bs, _, hh⟩ := hr
      rw [← hh]
      exact enforce_status_providerOps db bs
    rw [enforce_budget, providerOps_foldl _ _ hall]
  · intro bs hst hact
    have h1 : ¬ bs.status ≠ "exceeded" := by simp [hst]
    have h2 : ¬ bs.action_on_exceed = "alert" := by
      rcases hact with h | h <;> simp [h]
    simp only [enforce_status, if_neg h1, if_neg h2, if_pos hact]
    refine ⟨by trivial, by trivial, by trivial, ?_⟩
    intro he
    rw [he]
    rfl

/-- One exceeded terminate_ephemeral rule (limit 100, spent 150) and one
eligible ephemeral auto-terminate running resource. -/
def dbEnforce : Db :=
  ⟨[⟨"r1", some "p", 100, 8/10, "terminate_ephemeral", true⟩],
   [⟨"p", "2026-02", 150⟩],
   [⟨"res1", "p", "vm", "running", "ephemeral", true, 50⟩]⟩

/-- The BudgetStatus an exceeded terminate_ephemeral rule produces. -/
def bsExceeded : BudgetStatus :=
  ⟨some "p", "2026-02", 150, 100, 3/2, "exceeded", "terminate_ephemeral",
    [.exceeded 150 100]⟩

/-- Witness for C3: on dbEnforce, enforce_budget issues no provider
operation, and the loop body on an exceeded terminate_ephemeral status
records one terminate entry per selected resource. -/
theorem enforce_budget_pending_actions_witness :
    (enforce_budget dbEnforce (some ("p")) ("2026-02")).providerOps = [] ∧
    (enforce_status dbEnforce bsExceeded).actions =
      (get_enforceable_resources dbEnforce bsExceeded.provider_id
        bsExceeded.action_on_exceed).map
        (fun r => .resourceAction bsExceeded.provider_id r.id r.display_name
          (if bsExceeded.action_on_exceed = "terminate_ephemeral" then
            "terminate" else "scale_down")) ∧
    (enforce_status dbEnforce bsExceeded).providerOps = [] :=
  ⟨(enforce_budget_pending_actions dbEnforce (some ("p")) ("2026-02")).1,
    ((enforce_budget_pending_actions dbEnforce (some ("p"))
      ("2026-02")).2.2 bsExceeded rfl (Or.inr rfl)).1,
    ((enforce_budget_pending_actions dbEnforce (some ("p"))
      ("2026-02")).2.2 bsExceeded rfl (Or.inr rfl)).2.2.1⟩

/-- C3 counterexample: on dbEnforce the rule is exceeded with action
terminate_ephemeral and exactly one selected resource, and enforce_budget
records one `terminate` action entry (as a pending ActionLog) — but the
provider-operation trace is empty: no scale_down/terminate is issued
through the registry's resilient call, contradicting the claim that for
each selected resource the corresponding operation is issued. -/
theorem enforce_budget_no_provider_op_counterexample :
    (enforce_budget dbEnforce (some ("p")) ("2026-02")).actions =
      [.resourceAction (some ("p")) ("res1") ("vm") ("terminate")] ∧
    (enforce_budget dbEnforce (some ("p")) ("2026-02")).logs =
      [⟨"res1", "terminate", "pending", "budget_monitor",
        .msg (.exceeded 150 100)⟩] ∧
    (enforce_budget dbEnforce (some ("p")) ("2026-02")).providerOps
      = [] := by
  have hcheck : check_budget dbEnforce (some ("p")) ("2026-02") =
      [bsExceeded] := by
    norm_num [check_budget, scopeRules, evalRule, get_spending, pyTruthy,
      dbEnforce, bsExceeded]
  have htargets : get_enforceable_resources dbEnforce (some ("p"))
      ("terminate_ephemeral") =
      [⟨"res1", "p", "vm", "running", "ephemeral", true, 50⟩] := by
    decide
  rw [enforce_budget, hcheck]
  simp only [List.map_cons, List.map_nil, List.foldl_cons, List.foldl_nil]
  have hes : enforce_status dbEnforce bsExceeded =
      ⟨[.resourceAction (some ("p")) ("res1") ("vm") ("terminate")],
        [⟨"res1", "terminate", "pending", "budget_monitor",
          .msg (.exceeded 150 100)⟩], []⟩ := by
    simp only [enforce_status, bsExceeded]
    norm_num [htargets, reasonOf]
    decide
  rw [hes]
  refine ⟨rfl, rfl, rfl⟩

lemma retryLoop_ok {α : Type} (cfg : RetryConfig) (f : ℕ → Attempt α)
    (rand : ℕ → ℚ) (a r : ℕ) (d : ℚ) (v : α) (hok : f a = .ok v) :
    retryLoop cfg f rand a (r + 1) d = ⟨.ok v, 1, []⟩ := by
  simp [retryLoop, hok]

lemma retryLoop_final {α : Type} (cfg : RetryConfig) (f : ℕ → Attempt α)
    (rand : ℕ → ℚ) (a : ℕ) (d : ℚ) (e : PyExc) (he : f a = .exc e)
    (hret : cfg.retryable e = true) :
    retryLoop cfg f rand a 1 d = ⟨.raised e, 1, []⟩ := by
  simp [retryLoop, he, hret]

lemma retryLoop_retry {α : Type} (cfg : RetryConfig) (f : ℕ → Attempt α)
    (rand : ℕ → ℚ) (a r : ℕ) (d : ℚ) (e : PyExc) (he : f a = .exc e)
    (hret : cfg.retryable e = true) (hr : r ≠ 0) :
    retryLoop cfg f rand a (r + 1) d =
      ⟨(retryLoop cfg f rand (a + 1) r (nextDelay cfg d)).result,
       (retryLoop cfg f rand (a + 1) r (nextDelay cfg d)).invocations + 1,
       jitterOf cfg.jitter (rand a) d ::
         (retryLoop cfg f rand (a + 1) r (nextDelay cfg d)).sleeps⟩ := by
  simp [retryLoop, he, hret, hr]

lemma retryLoop_nonretry {α : Type} (cfg : RetryConfig) (f : ℕ → Attempt α)
    (rand : ℕ → ℚ) (a r : ℕ) (d : ℚ) (e : PyExc) (he : f a = .exc e)
    (hret : cfg.retryable e = false) :
    retryLoop cfg f rand a (r + 1) d = ⟨.raised e, 1, []⟩ := by
  simp [retryLoop, he, hret]

lemma sleeps_shift (cfg : RetryConfig) (rand : ℕ → ℚ) (a j : ℕ) (d : ℚ) :
    jitterOf cfg.jitter (rand a) d ::
      (List.range j).map
        (fun m => jitterOf cfg.jitter (rand (a + 1 + m))
          ((nextDelay cfg)^[m] (nextDelay cfg d))) =
    (List.range (j + 1)).map
      (fun m => jitterOf cfg.jitter (rand (a + m))
        ((nextDelay cfg)^[m] d)) := by
  rw [List.range_succ_eq_map]
  simp only [List.map_cons, List.map_map]
  refine congrArg₂ List.cons ?_ ?_
  · simp
  · refine List.map_congr_left ?_
    intro m _
    simp only [Function.comp_apply]
    rw [Function.iterate_succ_apply]
    congr 2
    omega

lemma retryLoop_success {α : Type} (cfg : RetryConfig) (f : ℕ → Attempt α)
    (rand : ℕ → ℚ) (v : α) :
    ∀ (j r a : ℕ) (d : ℚ), j < r →
    (∀ m, m < j → ∃ e, f (a + m) = .exc e ∧ cfg.retryable e = true) →
    f (a + j) = .ok v →
    retryLoop cfg f rand a r d =
      ⟨.ok v, j + 1, (List.range j).map
        (fun m => jitterOf cfg.jitter (rand (a + m))
          ((nextDelay cfg)^[m] d))⟩ := by
  intro j
  induction j with
  | zero =>
    intro r a d hjr _ hok
    obtain ⟨r', rfl⟩ : ∃ r', r = r' + 1 := ⟨r - 1, by omega⟩
    rw [Nat.add_zero] at hok
    rw [retryLoop_ok cfg f rand a r' d v hok]
    simp
  | succ j ih =>
    intro r a d hjr hfail hok
    obtain ⟨r', rfl⟩ : ∃ r', r = r' + 1 := ⟨r - 1, by omega⟩
    obtain ⟨e0, he0, hret0⟩ := hfail 0 (by omega)
    rw [Nat.add_zero] at he0
    have hr' : r' ≠ 0 := by omega
    have hrest := ih r' (a + 1) (nextDelay cfg d) (by omega)
      (fun m hm => by
        obtain ⟨e, he, hre⟩ := hfail (m + 1) (by omega)
        exact ⟨e, by rw [← he]; congr 1; omega, hre⟩)
      (by rw [← hok]; congr 1; omega)
    rw [retryLoop_retry cfg f rand a r' d e0 he0 hret0 hr', hrest]
    exact congrArg₂ (RetryTrace.mk (RetryResult.ok v)) rfl
      (sleeps_shift cfg rand a j d)

lemma retryLoop_allfail {α : Type} (cfg : RetryConfig) (f : ℕ → Attempt α)
    (rand : ℕ → ℚ) :
    ∀ (r a : ℕ) (d : ℚ), 1 ≤ r →
    (∀ m, m < r → ∃ e, f (a + m) = .exc e ∧ cfg.retryable e = true) →
    ∃ e, f (a + (r - 1)) = .exc e ∧
      retryLoop cfg f rand a r d =
        ⟨.raised e, r, (List.range (r - 1)).map
          (fun m => jitterOf cfg.jitter (rand (a + m))
            ((nextDelay cfg)^[m] d))⟩ := by
  intro r
  induction r with
  | zero => intro a d h; omega
  | succ r ih =>
    intro a d _ hfail
    obtain ⟨e0, he0, hret0⟩ := hfail 0 (by omega)
    rw [Nat.add_zero] at he0
    by_cases hr : r = 0
    · subst hr
      refine ⟨e0, by simpa using he0, ?_⟩
      rw [retryLoop_final cfg f rand a d e0 he0 hret0]
      simp
    · obtain ⟨e, he, heq⟩ := ih (a + 1) (nextDelay cfg d) (by omega)
        (fun m hm => by
          obtain ⟨e', he', hre'⟩ := hfail (m + 1) (by omega)
          exact ⟨e', by rw [← he']; congr 1; omega, hre'⟩)
      refine ⟨e, by rw [← he]; congr 1; omega, ?_⟩
      rw [retryLoop_retry cfg f rand a r d e0 he0 hret0 hr, heq]
      have hshift := sleeps_shift cfg rand a (r - 1) d
      have hr1 : r - 1 + 1 = r := by omega
      rw [hr1] at hshift
      exact congrArg₂ (RetryTrace.mk (RetryResult.raised e)) rfl hshift

/-- C7: for every retry-wrapped function, (i) retryable failures on
attempts 1..k-1 followed by success on attempt k ≤ max_attempts return the
success value after exactly k invocations, with the slept delays jittered
from the delay sequence; (ii) a non-retryable exception propagates after
exactly 1 invocation; (iii) when every attempt fails retryably, the final
attempt's failure propagates unmodified after exactly max_attempts
invocations; (iv) the delay evolves as
delay := min(delay * backoff_factor, max_delay); and (v) jitter multiplies
the slept delay by a factor within [0.75, 1.25]. -/
theorem retry_semantics {α : Type} (cfg : RetryConfig) (f : ℕ → Attempt α)
    (rand : ℕ → ℚ) :
    (∀ (k : ℕ) (v : α), 1 ≤ k → k ≤ cfg.max_attempts →
      (∀ m, 1 ≤ m → m < k → ∃ e, f m = .exc e ∧ cfg.retryable e = true) →
      f k = .ok v →
      retryRun cfg f rand =
        ⟨.ok v, k, (List.range (k - 1)).map
          (fun m => jitterOf cfg.jitter (rand (1 + m)) (delayAt cfg m))⟩) ∧
    (∀ e : PyExc, 1 ≤ cfg.max_attempts → f 1 = .exc e →
      cfg.retryable e = false →
      retryRun cfg f rand = ⟨.raised e, 1, []⟩) ∧
    (1 ≤ cfg.max_attempts →
      (∀ m, 1 ≤ m → m ≤ cfg.max_attempts →
        ∃ e, f m = .exc e ∧ cfg.retryable e = true) →
      ∃ e, f cfg.max_attempts = .exc e ∧
        retryRun cfg f rand =
          ⟨.raised e, cfg.max_attempts,
            (List.range (cfg.max_attempts - 1)).map
              (fun m => jitterOf cfg.jitter (rand (1 + m))
                (delayAt cfg m))⟩) ∧
    (∀ n : ℕ, delayAt cfg (n + 1) =
      min (delayAt cfg n * cfg.backoff_factor) cfg.max_delay) ∧
    (∀ (d rv : ℚ), 0 ≤ d → 0 ≤ rv → rv < 1 →
      d * (3/4) ≤ jitterOf true rv d ∧ jitterOf true rv d ≤ d * (5/4)) := by
  refine ⟨?_, ?_, ?_, ?_, ?_⟩
  · intro k v hk1 hk2 hfail hok
    have h := retryLoop_success cfg f rand v (k - 1) cfg.max_attempts 1
      cfg.base_delay (by omega)
      (fun m hm => by
        obtain ⟨e, he, hre⟩ := hfail (m + 1) (by omega) (by omega)
        exact ⟨e, by rw [← he]; congr 1; omega, hre⟩)
      (by rw [← hok]; congr 1; omega)
    rw [retryRun, h]
    exact congrArg₂ (RetryTrace.mk (RetryResult.ok v)) (by omega) rfl
  · intro e hmax h1 hret
    obtain ⟨m, hm⟩ : ∃ m, cfg.max_attempts = m + 1 :=
      ⟨cfg.max_attempts - 1, by omega⟩
    rw [retryRun, hm,
      retryLoop_nonretry cfg f rand 1 m cfg.base_delay e h1 hret]
  · intro hmax hfail
    obtain ⟨e, he, heq⟩ := retryLoop_allfail cfg f rand cfg.max_attempts 1
      cfg.base_delay hmax
      (fun m hm => by
        obtain ⟨e', he', hre'⟩ := hfail (m + 1) (by omega) (by omega)
        exact ⟨e', by rw [← he']; congr 1; omega, hre'⟩)
    refine ⟨e, by rw [← he]; congr 1; omega, ?_⟩
    rw [retryRun, heq]
    rfl
  · intro n
    simp only [delayAt, Function.iterate_succ_apply', nextDelay]
  · intro d rv h0 h1 h2
    simp only [jitterOf, if_true]
    constructor <;> nlinarith

/-- The retry configuration used by the C7 witness: the spec example
(3 attempts, base delay 1, defaults 30 / 2, jitter off for an exact sleep
trace, every non-CircuitBreakerError retryable). -/
def cfgW : RetryConfig := ⟨3, 1, 30, 2, false, fun e => !e.isCBE⟩

/-- A function that fails retryably on attempts 1-2 then succeeds. -/
def flakyW : ℕ → Attempt String := fun m =>
  if m < 3 then .exc (.other ("ConnectionError") ("transient"))
  else .ok ("recovered")

/-- Witness for C7: flakyW under cfgW returns `recovered` after exactly 3
invocations with sleeps [1, 2] (delay doubled, capped at 30, no jitter),
and a non-retryable CircuitBreakerError propagates after 1 invocation. -/
theorem retry_semantics_witness :
    retryRun cfgW flakyW (fun _ => 0) =
      ⟨.ok ("recovered"), 3, [1, 2]⟩ ∧
    retryRun cfgW (fun _ => .exc (.circuitBreakerError 60)) (fun _ => 0) =
      (⟨.raised (.circuitBreakerError 60), 1, []⟩ :
        RetryTrace String) := by
  constructor
  · have h := (retry_semantics cfgW flakyW (fun _ => 0)).1 3 ("recovered")
      (by decide) (by decide)
      (by
        intro m h1 h2
        interval_cases m
        · exact ⟨.other ("ConnectionError") ("transient"), rfl, rfl⟩
        · exact ⟨.other ("ConnectionError") ("transient"), rfl, rfl⟩)
      rfl
    rw [h]
    norm_num [cfgW, jitterOf, delayAt, nextDelay, List.range_succ,
      Function.iterate_succ_apply', min_def]
  · exact (retry_semantics cfgW
      (fun _ => .exc (.circuitBreakerError 60)) (fun _ => 0)).2.1
      (.circuitBreakerError 60) (by decide) rfl rfl

lemma resilientAttempt_open {α : Type} (st : ResilientState) (t : ℚ)
    (func : ℕ → Except PyExc α)
    (hst : st.breaker.state = .OPEN)
    (ht : t - st.breaker.last_failure_time < st.breaker.reset_timeout) :
    resilientAttempt st t func =
      (.error (.circuitBreakerError st.breaker.reset_timeout), st) := by
  have hrd : st.breaker.readState t = (.OPEN, st.breaker) := by
    simp only [CircuitBreaker.readState]
    rw [if_neg (fun h => absurd h.2 (not_le.mpr ht))]
    rw [hst]
  simp only [resilientAttempt, CircuitBreaker.call, hrd]
  simp

/-- C1 (amended): a CircuitOpen rejection raised inside _resilient_call is
retried like any other exception — retryable_exceptions is (Exception,)
and CircuitBreakerError is an Exception — so with the breaker OPEN
throughout, all 3 attempts are consumed and 2 backoff sleeps are
performed; the CircuitBreakerError then propagates to the caller
unchanged, the wrapped function is never invoked, the breaker is
unchanged, and nothing is recorded into the error tracker. -/
theorem circuitopen_retried_by_wrapper {α : Type} (pt fn as : String)
    (tracker : ErrorTracker) (cb : CircuitBreaker)
    (func : ℕ → Except PyExc α) (times rand : ℕ → ℚ) (tR : ℚ)
    (hst : cb.state = .OPEN)
    (h1 : times 1 - cb.last_failure_time < cb.reset_timeout)
    (h2 : times 2 - cb.last_failure_time < cb.reset_timeout)
    (h3 : times 3 - cb.last_failure_time < cb.reset_timeout) :
    resilient_call pt fn as tracker cb func times rand tR =
      ⟨.raised (.circuitBreakerError cb.reset_timeout), cb, 0,
        [jitterOf true (rand 1) 1, jitterOf true (rand 2) (min (1 * 2) 30)],
        tracker⟩ := by
  have ha1 := resilientAttempt_open (⟨cb, 0⟩ : ResilientState) (times 1)
    func hst h1
  have ha2 := resilientAttempt_open (⟨cb, 0⟩ : ResilientState) (times 2)
    func hst h2
  have ha3 := resilientAttempt_open (⟨cb, 0⟩ : ResilientState) (times 3)
    func hst h3
  simp only [resilient_call, resilientLoop, ha1, ha2, ha3]
  norm_num

/-- Witness for C1 at a concrete OPEN breaker: 5 failures recorded, last at
time 0, timeout 60, attempts at times 1, 2, 3 with jitter draws 0. -/
theorem circuitopen_retried_by_wrapper_witness :
    resilient_call ("oci") ("provision") ("cfg") ⟨[], 500⟩
        ⟨5, 60, "oci", .OPEN, 5, 0⟩ (fun _ => (.ok (0 : ℚ)))
        (fun i => (i : ℚ)) (fun _ => 0) 10 =
      ⟨.raised (.circuitBreakerError 60), ⟨5, 60, "oci", .OPEN, 5, 0⟩, 0,
        [jitterOf true 0 1, jitterOf true 0 (min (1 * 2) 30)],
        ⟨[], 500⟩⟩ := by
  exact circuitopen_retried_by_wrapper ("oci") ("provision") ("cfg")
    ⟨[], 500⟩ ⟨5, 60, "oci", .OPEN, 5, 0⟩ (fun _ => (.ok (0 : ℚ)))
    (fun i => (i : ℚ)) (fun _ => 0) 10 rfl (by norm_num) (by norm_num)
    (by norm_num)

/-- C1 counterexample: with the breaker OPEN (5 recorded failures, last at
time 0, timeout 60) and attempts at times 1, 2, 3, the CircuitOpen
rejection escapes _resilient_call only after two backoff sleeps
(0.75 s and 1.5 s with jitter draw 0) — so the rejection is retried, and
backoff sleeps are performed for it, contradicting the claim that it
propagates immediately with no retry and no sleep. -/
theorem circuitopen_retry_counterexample :
    (resilient_call ("oci") ("f") ("args") ⟨[], 500⟩
        ⟨5, 60, "oci", .OPEN, 5, 0⟩ (fun _ => (.ok (0 : ℚ)))
        (fun i => (i : ℚ)) (fun _ => 0) 10).result =
      .raised (.circuitBreakerError 60) ∧
    (resilient_call ("oci") ("f") ("args") ⟨[], 500⟩
        ⟨5, 60, "oci", .OPEN, 5, 0⟩ (fun _ => (.ok (0 : ℚ)))
        (fun i => (i : ℚ)) (fun _ => 0) 10).sleeps = [3/4, 3/2] ∧
    (resilient_call ("oci") ("f") ("args") ⟨[], 500⟩
        ⟨5, 60, "oci", .OPEN, 5, 0⟩ (fun _ => (.ok (0 : ℚ)))
        (fun i => (i : ℚ)) (fun _ => 0) 10).funcCalls = 0 := by
  norm_num [resilient_call, resilientLoop, resilientAttempt,
    CircuitBreaker.call, CircuitBreaker.readState, jitterOf, min_def]

lemma resilient_call_tracker_eq {α : Type} (pt fn as : String)
    (tracker : ErrorTracker) (cb : CircuitBreaker)
    (func : ℕ → Except PyExc α) (times rand : ℕ → ℚ) (tR : ℚ) :
    (resilient_call pt fn as tracker cb func times rand tR).tracker =
      match (resilient_call pt fn as tracker cb func times rand tR).result
        with
      | .raised (.circuitBreakerError _) => tracker
      | .raised e =>
        tracker.record tR ("provider." ++ pt) e
          [("function", fn), ("args_summary", as.take 200)]
      | _ => tracker := rfl

/-- C2 (amended): a failure that escapes _resilient_call and is not the
CircuitBreakerError rejection is recorded into the ErrorTracker with
source `provider.<provider_type>` and context (function name, arguments
truncated to 200 characters) before being re-raised; an escaping
CircuitOpen rejection is re-raised WITHOUT being recorded, and a
successful call records nothing. -/
theorem resilient_call_error_recording {α : Type} (pt fn as : String)
    (tracker : ErrorTracker) (cb : CircuitBreaker)
    (func : ℕ → Except PyExc α) (times rand : ℕ → ℚ) (tR : ℚ) :
    (∀ et msg : String,
      (resilient_call pt fn as tracker cb func times rand tR).result =
        .raised (.other et msg) →
      (resilient_call pt fn as tracker cb func times rand tR).tracker =
        tracker.record tR ("provider." ++ pt) (.other et msg)
          [("function", fn), ("args_summary", as.take 200)]) ∧
    (∀ w : ℚ,
      (resilient_call pt fn as tracker cb func times rand tR).result =
        .raised (.circuitBreakerError w) →
      (resilient_call pt fn as tracker cb func times rand tR).tracker =
        tracker) ∧
    (∀ a : α,
      (resilient_call pt fn as tracker cb func times rand tR).result =
        .ok a →
      (resilient_call pt fn as tracker cb func times rand tR).tracker =
        tracker) := by
  refine ⟨?_, ?_, ?_⟩
  · intro et msg ha
    have h := resilient_call_tracker_eq pt fn as tracker cb func times rand
      tR
    rw [ha] at h
    exact h
  · intro w ha
    have h := resilient_call_tracker_eq pt fn as tracker cb func times rand
      tR
    rw [ha] at h
    exact h
  · intro a ha
    have h := resilient_call_tracker_eq pt fn as tracker cb func times rand
      tR
    rw [ha] at h
    exact h

/-- Witness for C2: a CLOSED breaker whose wrapped function raises
ValueError on every attempt — the escaping failure is recorded with
source `provider.oci` and the function/args context. -/
theorem resilient_call_error_recording_witness :
    (resilient_call ("oci") ("provision") ("cfg") ⟨[], 500⟩
        ⟨5, 60, "oci", .CLOSED, 0, 0⟩
        (fun _ => ((.error (.other ("ValueError") ("boom"))) :
          Except PyExc ℚ))
        (fun i => (i : ℚ)) (fun _ => 0) 10).result =
      .raised (.other ("ValueError") ("boom")) ∧
    (resilient_call ("oci") ("provision") ("cfg") ⟨[], 500⟩
        ⟨5, 60, "oci", .CLOSED, 0, 0⟩
        (fun _ => ((.error (.other ("ValueError") ("boom"))) :
          Except PyExc ℚ))
        (fun i => (i : ℚ)) (fun _ => 0) 10).tracker =
      ErrorTracker.record ⟨[], 500⟩ 10 ("provider." ++ "oci")
        (.other ("ValueError") ("boom"))
        [("function", "provision"), ("args_summary", String.take ("cfg")
          200)] := by
  have hres : (resilient_call ("oci") ("provision") ("cfg") ⟨[], 500⟩
      ⟨5, 60, "oci", .CLOSED, 0, 0⟩
      (fun _ => ((.error (.other ("ValueError") ("boom"))) :
        Except PyExc ℚ))
      (fun i => (i : ℚ)) (fun _ => 0) 10).result =
      .raised (.other ("ValueError") ("boom")) := by
    simp [resilient_call, resilientLoop, resilientAttempt,
      CircuitBreaker.call, CircuitBreaker.readState,
      CircuitBreaker.record_failure]
  exact ⟨hres, (resilient_call_error_recording ("oci") ("provision")
    ("cfg") ⟨[], 500⟩ ⟨5, 60, "oci", .CLOSED, 0, 0⟩
    (fun _ => ((.error (.other ("ValueError") ("boom"))) : Except PyExc ℚ))
    (fun i => (i : ℚ)) (fun _ => 0) 10).1 ("ValueError") ("boom") hres⟩

/-- C2 counterexample: with the breaker OPEN the escaping failure is the
CircuitOpen rejection, and the error tracker is left untouched (count
stays 0) — no entry is recorded, contradicting the claim that every
escaping failure including CircuitOpen is recorded. -/
theorem circuitopen_not_recorded_counterexample :
    (resilient_call ("oci") ("list_resources") ("()") ⟨[], 500⟩
        ⟨5, 60, "oci", .OPEN, 5, 0⟩ (fun _ => (.ok (0 : ℚ)))
        (fun i => (i : ℚ)) (fun _ => 0) 10).result =
      .raised (.circuitBreakerError 60) ∧
    (resilient_call ("oci") ("list_resources") ("()") ⟨[], 500⟩
        ⟨5, 60, "oci", .OPEN, 5, 0⟩ (fun _ => (.ok (0 : ℚ)))
        (fun i => (i : ℚ)) (fun _ => 0) 10).tracker = ⟨[], 500⟩ ∧
    (resilient_call ("oci") ("list_resources") ("()") ⟨[], 500⟩
        ⟨5, 60, "oci", .OPEN, 5, 0⟩ (fun _ => (.ok (0 : ℚ)))
        (fun i => (i : ℚ)) (fun _ => 0) 10).tracker.count = 0 := by
  norm_num [resilient_call, resilientLoop, resilientAttempt,
    CircuitBreaker.call, CircuitBreaker.readState, ErrorTracker.count]
